import Mathlib

/-!
Verification of the proxy-tester program (`main.go`).

The Go source is shallowly embedded: pure helpers become Lean functions,
the network-facing probe `testProxy` is a function of an explicit
environment describing the outcomes of the external calls
(`url.Parse`, `http.NewRequestWithContext`, `client.Do`, `io.ReadAll`,
`time.Since`), and the concurrent worker pool `TestProxies` becomes a
small-step transition system over an explicit pool state.
-/

/-- Embeds the Go struct `ProxyResult` (main.go:19-25).  `Duration` is the
abstract wall-clock reading (`time.Duration` as a number). -/
structure ProxyResult where
  Proxy : String
  IsWorking : Bool
  IP : String
  Error : String
  Duration : Nat
deriving DecidableEq, Repr

/-- Embeds the Go struct `ProxyTester` (main.go:28-32).  `maxWorkers` is a Go
`int`, so it is modelled as an integer that may be non-positive. -/
structure ProxyTester where
  timeout : Nat
  maxWorkers : Int
  testURL : String
deriving DecidableEq, Repr

/-- Embeds `NewProxyTester` (main.go:35-41). -/
def NewProxyTester (timeout : Nat) (maxWorkers : Int) : ProxyTester :=
  { timeout := timeout, maxWorkers := maxWorkers, testURL := "http://ifconfig.co/ip" }

instance exceptDecEq {ε α : Type} [DecidableEq ε] [DecidableEq α] :
    DecidableEq (Except ε α) := fun a b =>
  match a, b with
  | Except.error e, Except.error f =>
    if h : e = f then isTrue (by rw [h])
    else isFalse (fun hc => by cases hc; exact h rfl)
  | Except.error _, Except.ok _ => isFalse (fun hc => by cases hc)
  | Except.ok _, Except.error _ => isFalse (fun hc => by cases hc)
  | Except.ok x, Except.ok y =>
    if h : x = y then isTrue (by rw [h])
    else isFalse (fun hc => by cases hc; exact h rfl)

/-- Outcome of one HTTP exchange as `testProxy` observes it: the status code of
the response and the outcome of `io.ReadAll(resp.Body)` (either the body as a
string or a read-error message). -/
structure HttpResponse where
  StatusCode : Int
  BodyRead : Except String String
deriving DecidableEq, Repr

/-- Environment for one `testProxy` call: the outcomes of the external
(effectful) calls the Go code makes.  `parseURL` is the error of
`url.Parse(proxyURL)` (`none` = success), `newRequest` the error of
`http.NewRequestWithContext`, `clientDo` the outcome of `client.Do(req)`
(transport error or a response), and `elapsed` the value `time.Since(start)`
yields at the return point. -/
structure ProbeEnv where
  parseURL : Option String
  newRequest : Option String
  clientDo : Except String HttpResponse
  elapsed : Nat
deriving DecidableEq, Repr

/-- Go `unicode.IsSpace`, the white-space predicate used by
`strings.TrimSpace`: the White_Space code points. -/
def goIsSpace (c : Char) : Bool :=
  (9 ≤ c.val && c.val ≤ 13) || c.val = 32 || c.val = 0x85 || c.val = 0xA0 ||
  c.val = 0x1680 || (0x2000 ≤ c.val && c.val ≤ 0x200A) ||
  c.val = 0x2028 || c.val = 0x2029 || c.val = 0x202F || c.val = 0x205F ||
  c.val = 0x3000

/-- Go `strings.TrimSpace`: drop white space from both ends. -/
def trimSpace (s : String) : String :=
  String.mk (((s.data.dropWhile goIsSpace).reverse.dropWhile goIsSpace).reverse)

/-- ASCII decimal digit, as used by Go's IP parsers. -/
def isDigitChar (c : Char) : Bool :=
  ('0' ≤ c && c ≤ '9')

/-- Hexadecimal digit, as accepted by Go's IPv6 field parser. -/
def isHexChar (c : Char) : Bool :=
  isDigitChar c || ('a' ≤ c && c ≤ 'f') || ('A' ≤ c && c ≤ 'F')

/-- Numeric value of a decimal digit string (Go `dtoi` accumulation). -/
def fieldVal (l : List Char) : Nat :=
  l.foldl (fun a c => a * 10 + (c.toNat - '0'.toNat)) 0

/-- One dotted-decimal IPv4 field as `netip.parseIPv4Fields` accepts it:
non-empty, all digits, no leading zero, value at most 255 (which also bounds
the length by 3 digits). -/
def validOctet (l : List Char) : Bool :=
  !l.isEmpty && l.all isDigitChar && decide (l.length ≤ 3) &&
  (l.length == 1 || !(l.head? == some '0')) && decide (fieldVal l ≤ 255)

/-- Split a character list at every dot, keeping empty segments, mirroring the
field loop of Go's `netip.parseIPv4`. -/
def splitDots : List Char → List (List Char)
  | [] => [[]]
  | c :: rest =>
    if c = '.' then [] :: splitDots rest
    else
      match splitDots rest with
      | [] => [[c]]
      | g :: gs => (c :: g) :: gs

/-- Go `netip.parseIPv4` as a validity predicate: exactly four fields, each a
valid octet. -/
def goParseIPv4 (l : List Char) : Bool :=
  let parts := splitDots l
  parts.length == 4 && parts.all validOctet

/-- The checks Go's `netip.parseIPv6` performs after its field loop: the input
must be fully consumed, and `::` must be present exactly when fewer than eight
16-bit fields were written (so that it expands to at least one field). -/
def v6post (s : List Char) (i : Nat) (ell : Bool) : Bool :=
  s.isEmpty && (if i < 16 then ell else !ell)

/-- The field loop of Go's `netip.parseIPv6`.  `s` is the unconsumed input,
`i` the number of address bytes already filled (2 per field, 4 for a trailing
embedded IPv4), `ell` whether `::` has been seen.  Each field is 1-4 hex
digits; an embedded IPv4 must land on the last four bytes unless `::` was
seen; `::` may occur once.  The loop runs while `i < 16` and every iteration
adds at least 2 to `i`, so 8 units of structural fuel cover it; the fuel-0
case can only be reached with `i ≥ 16` and then agrees with the loop exit. -/
def v6loop : Nat → List Char → Nat → Bool → Bool
  | 0, s, i, ell => v6post s i ell
  | fuel + 1, s, i, ell =>
    if i < 16 then
      let hd := s.takeWhile isHexChar
      let rest := s.dropWhile isHexChar
      if hd.length == 0 then false
      else if 4 < hd.length then false
      else
        match rest with
        | [] => v6post [] (i + 2) ell
        | '.' :: _ =>
          (ell || i == 12) && decide (i + 4 ≤ 16) && goParseIPv4 s &&
            v6post [] (i + 4) ell
        | ':' :: [] => false
        | ':' :: ':' :: rest3 =>
          if ell then false
          else
            match rest3 with
            | [] => v6post [] (i + 2) true
            | _ :: _ => v6loop fuel rest3 (i + 2) true
        | ':' :: rest2 => v6loop fuel rest2 (i + 2) ell
        | _ => false
    else v6post s i ell

/-- Go `netip.parseIPv6` as a validity predicate, specialised to
`net.ParseIP`'s use: any zone marker `%` makes the address invalid (an empty
zone is a parse error, a non-empty one is rejected by `net.parseIP`), a
leading `::` may stand alone or start the field loop. -/
def goParseIPv6 (s : List Char) : Bool :=
  if s.contains '%' then false
  else
    match s with
    | ':' :: ':' :: rest => if rest.isEmpty then true else v6loop 8 rest 0 true
    | _ => v6loop 8 s 0 false

/-- The scan at the top of `netip.ParseAddr`: the first `.`, `:` or `%`
decides how the string is parsed. -/
def ipKind : List Char → Option Char
  | [] => none
  | c :: rest => if c = '.' || c = ':' || c = '%' then some c else ipKind rest

/-- Go `net.ParseIP(s) != nil`: the string is a valid IPv4 dotted-decimal or
IPv6 literal (with no zone). -/
def goParseIP (s : String) : Bool :=
  match ipKind s.data with
  | some '.' => goParseIPv4 s.data
  | some ':' => goParseIPv6 s.data
  | _ => false

/-- Embeds `testProxy` (main.go:44-126).  The first component is the returned
`ProxyResult`; the second counts how many network requests were issued (how
often `client.Do` ran), for the no-network-I/O claims. -/
def testProxy (pt : ProxyTester) (env : ProbeEnv) (proxyURL : String) :
    ProxyResult × Nat :=
  match env.parseURL with
  | some e =>
    ({ Proxy := proxyURL, IsWorking := false, IP := "",
       Error := "Invalid proxy URL: " ++ e, Duration := env.elapsed }, 0)
  | none =>
    match env.newRequest with
    | some e =>
      ({ Proxy := proxyURL, IsWorking := false, IP := "",
         Error := "Failed to create request: " ++ e, Duration := env.elapsed }, 0)
    | none =>
      match env.clientDo with
      | Except.error e =>
        ({ Proxy := proxyURL, IsWorking := false, IP := "",
           Error := "Request failed: " ++ e, Duration := env.elapsed }, 1)
      | Except.ok resp =>
        if resp.StatusCode ≠ 200 then
          ({ Proxy := proxyURL, IsWorking := false, IP := "",
             Error := "HTTP " ++ toString resp.StatusCode,
             Duration := env.elapsed }, 1)
        else
          match resp.BodyRead with
          | Except.error e =>
            ({ Proxy := proxyURL, IsWorking := false, IP := "",
               Error := "Failed to read response: " ++ e,
               Duration := env.elapsed }, 1)
          | Except.ok body =>
            let ip := trimSpace body
            if goParseIP ip = false then
              ({ Proxy := proxyURL, IsWorking := false, IP := "",
                 Error := "Invalid IP response", Duration := env.elapsed }, 1)
            else
              ({ Proxy := proxyURL, IsWorking := true, IP := ip,
                 Error := "", Duration := env.elapsed }, 1)

/-- Go `strings.HasPrefix`. -/
def goHasPref (s pre : String) : Bool :=
  pre.data.isPrefixOf s.data

/-- The body of the scanner loop of `loadProxiesFromReader` (main.go:171-180)
for one line: `none` when the line is dropped, otherwise the normalized
address. -/
def processLine (line : String) : Option String :=
  let t := trimSpace line
  if !(t == "") && !(goHasPref t "#") then
    some (if !(goHasPref t "http://") && !(goHasPref t "https://") &&
             !(goHasPref t "socks5://") then "http://" ++ t else t)
  else none

/-- Embeds `loadProxiesFromReader` (main.go:168-183); the reader is modelled
by the list of lines its scanner yields. -/
def loadProxiesFromReader (lines : List String) : List String :=
  lines.filterMap processLine

/-- Embeds `truncateString` (main.go:234-240).  Go strings are byte slices
and `len`/slicing are byte-based, so the string is modelled as its byte list;
`46` is the byte of `.`.  `none` models the panic of an out-of-range slice
`s[:maxLen-3]`. -/
def truncateString (s : List UInt8) (maxLen : Int) : Option (List UInt8) :=
  if (s.length : Int) ≤ maxLen then some s
  else if 0 ≤ maxLen - 3 ∧ maxLen - 3 ≤ (s.length : Int) then
    some (s.take (maxLen - 3).toNat ++ [46, 46, 46])
  else none

/-- The probe function a `ProxyTester` runs on each job, once the per-call
network outcomes are fixed by an environment family `envF`. -/
def probeOf (pt : ProxyTester) (envF : String → ProbeEnv) : String → ProxyResult :=
  fun a => (testProxy pt (envF a) a).1

/-- State of one `TestProxies` run (main.go:129-165): the jobs still buffered
in the `jobs` channel, the job each spawned worker currently holds (`none` =
blocked on the channel or exited), and the results collected so far. -/
structure PoolState where
  jobs : List String
  workers : List (Option String)
  results : List ProxyResult
deriving DecidableEq, Repr

/-- One scheduler step of the `TestProxies` worker pool: a blocked worker
receives the next buffered job, or a worker finishes its probe and sends the
`ProxyResult` to the `results` channel (which the collector drains). -/
inductive TestProxiesStep (probe : String → ProxyResult) :
    PoolState → PoolState → Prop where
  | take (i : Nat) (j : String) (rest : List String)
      (ws : List (Option String)) (rs : List ProxyResult)
      (hi : ws[i]? = some none) :
      TestProxiesStep probe ⟨j :: rest, ws, rs⟩ ⟨rest, ws.set i (some j), rs⟩
  | finish (i : Nat) (j : String) (jobsL : List String)
      (ws : List (Option String)) (rs : List ProxyResult)
      (hi : ws[i]? = some (some j)) :
      TestProxiesStep probe ⟨jobsL, ws, rs⟩
        ⟨jobsL, ws.set i none, rs ++ [probe j]⟩

/-- Any interleaving of pool steps. -/
def TestProxiesReach (probe : String → ProxyResult) :
    PoolState → PoolState → Prop :=
  Relation.ReflTransGen (TestProxiesStep probe)

/-- The state of `TestProxies` right after all jobs were buffered and the
workers spawned: the `for i := 0; i < pt.maxWorkers; i++` loop starts
`pt.maxWorkers.toNat` workers (none for a non-positive count), all idle. -/
def TestProxiesInit (pt : ProxyTester) (proxies : List String) : PoolState :=
  ⟨proxies, List.replicate pt.maxWorkers.toNat none, []⟩

/-- `TestProxies` returns: every worker has exited its `range jobs` loop, so
no worker holds a job and — unless no worker was ever spawned — the closed
`jobs` channel has been drained. -/
def TestProxiesDone (s : PoolState) : Prop :=
  (∀ o ∈ s.workers, o = none) ∧ (s.workers = [] ∨ s.jobs = [])

/-- The jobs currently held by workers. -/
def inflightJobs (ws : List (Option String)) : List String :=
  ws.filterMap id

/-- The sequential reference run of the pool: probe each address in order.
This follows the spec's words for the worker-count-1 degenerate case
("fully sequential probing"). -/
def testProxiesSeq (probe : String → ProxyResult) (proxies : List String) :
    List ProxyResult :=
  proxies.map probe

/-- Concrete tester with one worker, for witnesses. -/
def ptW1 : ProxyTester := NewProxyTester 15 1

/-- Concrete tester with two workers, for witnesses. -/
def ptW2 : ProxyTester := NewProxyTester 15 2

/-- Concrete tester with zero workers, for witnesses. -/
def ptW0 : ProxyTester := NewProxyTester 15 0

/-- Environment of a fully successful probe returning body `"1.2.3.4"`. -/
def envOKW : ProbeEnv := ⟨none, none, Except.ok ⟨200, Except.ok "1.2.3.4"⟩, 7⟩

/-- Environment of a probe whose proxy address fails to parse. -/
def envBadW : ProbeEnv := ⟨some "bad", none, Except.ok ⟨200, Except.ok "x"⟩, 9⟩

/-- Environment of a probe answered with HTTP 204 and a valid IP body. -/
def env204W : ProbeEnv := ⟨none, none, Except.ok ⟨204, Except.ok "1.2.3.4"⟩, 5⟩

/-- Environment of a probe answered with HTTP 200 and a non-IP body. -/
def envHelloW : ProbeEnv := ⟨none, none, Except.ok ⟨200, Except.ok "hello"⟩, 5⟩

/-- A deterministic probe fixture, for witnesses. -/
def probeW : String → ProxyResult := fun a => ⟨a, true, "9.9.9.9", "", 3⟩

/-- Finished pool state of the one-worker witness run. -/
def t1W : PoolState :=
  ⟨[], List.replicate 1 none, List.map probeW ["http://a", "http://b"]⟩

/-- Finished pool state of the two-worker witness run. -/
def tNW : PoolState :=
  ⟨[], List.replicate 2 none, List.map probeW ["http://a", "http://b"]⟩

/-- Giving a job to an idle worker adds that job to the in-flight multiset. -/
theorem inflightJobs_set_take :
    ∀ (ws : List (Option String)) (i : Nat) (j : String),
      ws[i]? = some none →
      (inflightJobs (ws.set i (some j))).Perm (j :: inflightJobs ws) := by
  intro ws
  induction ws with
  | nil => intro i j h; simp at h
  | cons o tl ih =>
    intro i j h
    cases i with
    | zero =>
      simp only [List.getElem?_cons_zero, Option.some.injEq] at h
      subst h
      simp [inflightJobs, List.filterMap_cons]
    | succ n =>
      simp only [List.getElem?_cons_succ] at h
      have hperm := ih n j h
      cases o with
      | none =>
        simpa [inflightJobs, List.filterMap_cons] using hperm
      | some x =>
        simp only [inflightJobs, List.set_cons_succ, List.filterMap_cons] at *
        exact hperm.cons x |>.trans (List.Perm.swap j x _)

/-- Taking the finished job away from a worker removes it from the in-flight
multiset. -/
theorem inflightJobs_set_finish :
    ∀ (ws : List (Option String)) (i : Nat) (j : String),
      ws[i]? = some (some j) →
      (inflightJobs ws).Perm (j :: inflightJobs (ws.set i none)) := by
  intro ws
  induction ws with
  | nil => intro i j h; simp at h
  | cons o tl ih =>
    intro i j h
    cases i with
    | zero =>
      simp only [List.getElem?_cons_zero, Option.some.injEq] at h
      subst h
      simp [inflightJobs, List.filterMap_cons]
    | succ n =>
      simp only [List.getElem?_cons_succ] at h
      have hperm := ih n j h
      cases o with
      | none =>
        simpa [inflightJobs, List.filterMap_cons] using hperm
      | some x =>
        simp only [inflightJobs, List.set_cons_succ, List.filterMap_cons] at *
        exact (hperm.cons x).trans (List.Perm.swap j x _)

/-- The pool step relation preserves the multiset of results-plus-pending
work: collected results together with the probe outcomes of in-flight and
still-buffered jobs. -/
theorem step_results_perm {probe : String → ProxyResult} {s t : PoolState}
    (h : TestProxiesStep probe s t) :
    (t.results ++ ((inflightJobs t.workers ++ t.jobs).map probe)).Perm
      (s.results ++ ((inflightJobs s.workers ++ s.jobs).map probe)) := by
  cases h with
  | take i j rest ws rs hi =>
    dsimp only
    apply List.Perm.append_left
    apply List.Perm.map
    have h1 : (inflightJobs (ws.set i (some j)) ++ rest).Perm
        ((j :: inflightJobs ws) ++ rest) :=
      (inflightJobs_set_take ws i j hi).append_right rest
    have h2 : (inflightJobs ws ++ j :: rest).Perm
        (j :: (inflightJobs ws ++ rest)) := List.perm_middle
    exact h1.trans h2.symm
  | finish i j jobsL ws rs hi =>
    dsimp only
    have hperm : (inflightJobs ws ++ jobsL).Perm
        ((j :: inflightJobs (ws.set i none)) ++ jobsL) :=
      (inflightJobs_set_finish ws i j hi).append_right jobsL
    have hm := List.Perm.map probe hperm
    rw [List.append_assoc]
    exact List.Perm.append_left rs hm.symm

/-- The multiset invariant holds along any reachable execution. -/
theorem reach_results_perm {probe : String → ProxyResult} {s t : PoolState}
    (h : TestProxiesReach probe s t) :
    (t.results ++ ((inflightJobs t.workers ++ t.jobs).map probe)).Perm
      (s.results ++ ((inflightJobs s.workers ++ s.jobs).map probe)) := by
  induction h with
  | refl => exact List.Perm.refl _
  | tail _ hstep ih => exact (step_results_perm hstep).trans ih

/-- A pool step never changes the number of spawned workers. -/
theorem step_workers_length {probe : String → ProxyResult}
    {s t : PoolState} (h : TestProxiesStep probe s t) :
    t.workers.length = s.workers.length := by
  cases h with
  | take i j rest ws rs hi => simp
  | finish i j jobsL ws rs hi => simp

/-- The number of spawned workers is constant along any execution. -/
theorem reach_workers_length {probe : String → ProxyResult}
    {s t : PoolState} (h : TestProxiesReach probe s t) :
    t.workers.length = s.workers.length := by
  induction h with
  | refl => rfl
  | tail _ hstep ih => exact (step_workers_length hstep).trans ih

/-- Freshly spawned workers hold no jobs. -/
theorem inflightJobs_replicate (n : Nat) :
    inflightJobs (List.replicate n none) = [] := by
  induction n with
  | zero => rfl
  | succ k ih => simpa [inflightJobs, List.replicate_succ, List.filterMap_cons]
      using ih

/-- Workers that all hold no job contribute no in-flight jobs. -/
theorem inflightJobs_eq_nil {ws : List (Option String)}
    (h : ∀ o ∈ ws, o = none) : inflightJobs ws = [] := by
  induction ws with
  | nil => rfl
  | cons o tl ih =>
    have ho : o = none := h o (List.mem_cons_self o tl)
    subst ho
    simpa [inflightJobs, List.filterMap_cons] using
      ih (fun o hm => h o (List.mem_cons_of_mem _ hm))

/-- With at least one worker spawned, the schedule in which worker 0 takes
and finishes each job in turn drains the whole job queue. -/
theorem TestProxies_seq_schedule (probe : String → ProxyResult) (k : Nat) :
    ∀ (jobsL : List String) (rs : List ProxyResult),
      TestProxiesReach probe ⟨jobsL, List.replicate (k + 1) none, rs⟩
        ⟨[], List.replicate (k + 1) none, rs ++ jobsL.map probe⟩ := by
  intro jobsL
  induction jobsL with
  | nil =>
    intro rs
    simp only [List.map_nil, List.append_nil]
    exact Relation.ReflTransGen.refl
  | cons j rest ih =>
    intro rs
    have h1 : TestProxiesStep probe
        ⟨j :: rest, List.replicate (k + 1) none, rs⟩
        ⟨rest, (List.replicate (k + 1) none).set 0 (some j), rs⟩ :=
      TestProxiesStep.take 0 j rest _ rs (by
        rw [List.replicate_succ]
        exact List.getElem?_cons_zero)
    have hset1 : (List.replicate (k + 1) none).set 0 (some j) =
        some j :: List.replicate k (none : Option String) := by
      rw [List.replicate_succ]
      rfl
    have h2 : TestProxiesStep probe
        ⟨rest, some j :: List.replicate k none, rs⟩
        ⟨rest, (some j :: List.replicate k (none : Option String)).set 0 none,
          rs ++ [probe j]⟩ :=
      TestProxiesStep.finish 0 j rest _ rs List.getElem?_cons_zero
    have hset2 : (some j :: List.replicate k (none : Option String)).set 0 none =
        List.replicate (k + 1) (none : Option String) := by
      rw [List.replicate_succ]
      rfl
    have h3 := ih (rs ++ [probe j])
    rw [List.append_assoc] at h3
    have htail : TestProxiesReach probe
        ⟨rest, some j :: List.replicate k none, rs⟩
        ⟨[], List.replicate (k + 1) none, rs ++ ([probe j] ++ rest.map probe)⟩ :=
      Relation.ReflTransGen.head (hset2 ▸ h2) h3
    exact Relation.ReflTransGen.head (hset1 ▸ h1) htail

/-- With a positive worker count the pool always reaches a finished state
holding exactly the probe outcomes of all inputs. -/
theorem TestProxies_total (probe : String → ProxyResult) (pt : ProxyTester)
    (proxies : List String) (h : 1 ≤ pt.maxWorkers) :
    TestProxiesReach probe (TestProxiesInit pt proxies)
      ⟨[], List.replicate pt.maxWorkers.toNat none, proxies.map probe⟩ ∧
    TestProxiesDone
      ⟨[], List.replicate pt.maxWorkers.toNat none, proxies.map probe⟩ := by
  obtain ⟨k, hk⟩ : ∃ k, pt.maxWorkers.toNat = k + 1 := by
    refine ⟨pt.maxWorkers.toNat - 1, ?_⟩
    omega
  constructor
  · have := TestProxies_seq_schedule probe k proxies []
    simp only [List.nil_append] at this
    rw [TestProxiesInit, hk]
    exact this
  · constructor
    · intro o ho
      exact (List.eq_of_mem_replicate ho)
    · exact Or.inr rfl

/-- A pool step needs at least one spawned worker. -/
theorem TestProxiesStep.workers_ne_nil {probe : String → ProxyResult}
    {s t : PoolState} (h : TestProxiesStep probe s t) : s.workers ≠ [] := by
  cases h with
  | take i j rest ws rs hi =>
    intro hw
    dsimp only at hw
    rw [hw] at hi
    simp at hi
  | finish i j jobsL ws rs hi =>
    intro hw
    dsimp only at hw
    rw [hw] at hi
    simp at hi

/-- With no spawned workers the pool cannot move at all. -/
theorem TestProxiesReach.eq_of_no_workers {probe : String → ProxyResult}
    {s t : PoolState} (h : TestProxiesReach probe s t) (hw : s.workers = []) :
    t = s := by
  induction h with
  | refl => rfl
  | tail _ hstep ih =>
    exact absurd (ih ▸ hw) (TestProxiesStep.workers_ne_nil hstep)

/-- In any finished reachable state of a pool with a positive worker count,
the collected results are a permutation of the probe outcomes of the
inputs. -/
theorem TestProxiesDone.results_perm {probe : String → ProxyResult}
    {pt : ProxyTester} {proxies : List String} {t : PoolState}
    (hr : TestProxiesReach probe (TestProxiesInit pt proxies) t)
    (hd : TestProxiesDone t) (hw : 1 ≤ pt.maxWorkers) :
    t.results.Perm (proxies.map probe) := by
  have hperm := reach_results_perm hr
  rw [TestProxiesInit] at hperm
  simp only [inflightJobs_replicate, List.nil_append] at hperm
  have hinf : inflightJobs t.workers = [] := inflightJobs_eq_nil hd.1
  have hlen := reach_workers_length hr
  rw [TestProxiesInit] at hlen
  have hjobs : t.jobs = [] := by
    rcases hd.2 with hnil | hj
    · exfalso
      rw [hnil] at hlen
      simp only [List.length_nil, List.length_replicate] at hlen
      omega
    · exact hj
  rw [hinf, hjobs] at hperm
  simpa using hperm

/-- Exhaustive case analysis of `testProxy`: exactly one of the seven return
paths of main.go:44-126 is taken, and each fully determines the result. -/
theorem testProxy_branches (pt : ProxyTester) (env : ProbeEnv) (a : String) :
    (∃ e, env.parseURL = some e ∧
      testProxy pt env a =
        (⟨a, false, "", "Invalid proxy URL: " ++ e, env.elapsed⟩, 0)) ∨
    (env.parseURL = none ∧ ∃ e, env.newRequest = some e ∧
      testProxy pt env a =
        (⟨a, false, "", "Failed to create request: " ++ e, env.elapsed⟩, 0)) ∨
    (env.parseURL = none ∧ env.newRequest = none ∧
      ∃ e, env.clientDo = Except.error e ∧
      testProxy pt env a =
        (⟨a, false, "", "Request failed: " ++ e, env.elapsed⟩, 1)) ∨
    (env.parseURL = none ∧ env.newRequest = none ∧
      ∃ resp, env.clientDo = Except.ok resp ∧ resp.StatusCode ≠ 200 ∧
      testProxy pt env a =
        (⟨a, false, "", "HTTP " ++ toString resp.StatusCode, env.elapsed⟩, 1)) ∨
    (env.parseURL = none ∧ env.newRequest = none ∧
      ∃ resp e, env.clientDo = Except.ok resp ∧ resp.StatusCode = 200 ∧
      resp.BodyRead = Except.error e ∧
      testProxy pt env a =
        (⟨a, false, "", "Failed to read response: " ++ e, env.elapsed⟩, 1)) ∨
    (env.parseURL = none ∧ env.newRequest = none ∧
      ∃ resp body, env.clientDo = Except.ok resp ∧ resp.StatusCode = 200 ∧
      resp.BodyRead = Except.ok body ∧ goParseIP (trimSpace body) = false ∧
      testProxy pt env a =
        (⟨a, false, "", "Invalid IP response", env.elapsed⟩, 1)) ∨
    (env.parseURL = none ∧ env.newRequest = none ∧
      ∃ resp body, env.clientDo = Except.ok resp ∧ resp.StatusCode = 200 ∧
      resp.BodyRead = Except.ok body ∧ goParseIP (trimSpace body) = true ∧
      testProxy pt env a =
        (⟨a, true, trimSpace body, "", env.elapsed⟩, 1)) := by
  rcases env with ⟨p, nr, cd, el⟩
  rcases p with _ | e1
  case some => exact Or.inl ⟨e1, rfl, rfl⟩
  rcases nr with _ | e2
  case some => exact Or.inr (Or.inl ⟨rfl, e2, rfl, rfl⟩)
  rcases cd with e3 | resp
  case error => exact Or.inr (Or.inr (Or.inl ⟨rfl, rfl, e3, rfl, rfl⟩))
  rcases resp with ⟨code, br⟩
  by_cases hc : code = 200
  · subst hc
    rcases br with e4 | body
    · refine Or.inr (Or.inr (Or.inr (Or.inr (Or.inl
        ⟨rfl, rfl, ⟨200, Except.error e4⟩, e4, rfl, rfl, rfl, ?_⟩))))
      simp [testProxy]
    · by_cases hip : goParseIP (trimSpace body) = false
      · refine Or.inr (Or.inr (Or.inr (Or.inr (Or.inr (Or.inl
          ⟨rfl, rfl, ⟨200, Except.ok body⟩, body, rfl, rfl, rfl, hip, ?_⟩)))))
        simp [testProxy, hip]
      · rw [Bool.not_eq_false] at hip
        refine Or.inr (Or.inr (Or.inr (Or.inr (Or.inr (Or.inr
          ⟨rfl, rfl, ⟨200, Except.ok body⟩, body, rfl, rfl, rfl, hip, ?_⟩)))))
        simp [testProxy, hip]
  · refine Or.inr (Or.inr (Or.inr (Or.inl
      ⟨rfl, rfl, ⟨code, br⟩, rfl, hc, ?_⟩)))
    simp [testProxy, hc]

/-- Every branch of `testProxy` copies the input address into the `Proxy`
field. -/
theorem testProxy_Proxy (pt : ProxyTester) (env : ProbeEnv) (a : String) :
    (testProxy pt env a).1.Proxy = a := by
  rcases testProxy_branches pt env a with
    ⟨e, _, h⟩ | ⟨_, e, _, h⟩ | ⟨_, _, e, _, h⟩ | ⟨_, _, r, _, _, h⟩ |
    ⟨_, _, r, e, _, _, _, h⟩ | ⟨_, _, r, b, _, _, _, _, h⟩ |
    ⟨_, _, r, b, _, _, _, _, h⟩ <;> rw [h]

/-- Two string concatenations whose left parts start with different
characters are different strings. -/
theorem String.append_ne_append_of_head {p q e f : String} {c d : Char}
    (hp : (p ++ e).data.head? = some c) (hq : (q ++ f).data.head? = some d)
    (hcd : c ≠ d) : p ++ e ≠ q ++ f := by
  intro h
  rw [h] at hp
  rw [hp] at hq
  exact hcd (Option.some.inj hq)

/-- Claim C2: every `ProbeResult` produced by `testProxy` satisfies the
mutual-exclusion invariant — the IP field is non-empty only when the working
flag is true, the error field is non-empty only when the flag is false, and
the two are never both populated, on every return path. -/
theorem testProxy_ip_error_exclusive (pt : ProxyTester) (env : ProbeEnv)
    (a : String) :
    ((testProxy pt env a).1.IP ≠ "" → (testProxy pt env a).1.IsWorking = true) ∧
    ((testProxy pt env a).1.Error ≠ "" →
      (testProxy pt env a).1.IsWorking = false) ∧
    ¬((testProxy pt env a).1.IP ≠ "" ∧ (testProxy pt env a).1.Error ≠ "") := by
  rcases testProxy_branches pt env a with
    ⟨e, _, h⟩ | ⟨_, e, _, h⟩ | ⟨_, _, e, _, h⟩ | ⟨_, _, r, _, _, h⟩ |
    ⟨_, _, r, e, _, _, _, h⟩ | ⟨_, _, r, b, _, _, _, _, h⟩ |
    ⟨_, _, r, b, _, _, _, _, h⟩ <;> rw [h] <;> simp

/-- Witness for claim C2 at a concrete successful probe. -/
theorem testProxy_ip_error_exclusive_witness :
    ((testProxy ptW1 envOKW "http://a").1.IP ≠ "" →
      (testProxy ptW1 envOKW "http://a").1.IsWorking = true) ∧
    ((testProxy ptW1 envOKW "http://a").1.Error ≠ "" →
      (testProxy ptW1 envOKW "http://a").1.IsWorking = false) ∧
    ¬((testProxy ptW1 envOKW "http://a").1.IP ≠ "" ∧
      (testProxy ptW1 envOKW "http://a").1.Error ≠ "") :=
  testProxy_ip_error_exclusive ptW1 envOKW "http://a"

/-- Claim C3: when the proxy address fails URI parsing, `testProxy` returns
working=false with an error describing the invalid proxy URL, and issues
zero network requests. -/
theorem testProxy_invalid_url (pt : ProxyTester) (env : ProbeEnv) (a e : String)
    (h : env.parseURL = some e) :
    testProxy pt env a =
      (⟨a, false, "", "Invalid proxy URL: " ++ e, env.elapsed⟩, 0) := by
  rcases testProxy_branches pt env a with
    ⟨e1, he, hr⟩ | ⟨hp, _, _, _⟩ | ⟨hp, _, _⟩ | ⟨hp, _, _⟩ | ⟨hp, _, _⟩ |
    ⟨hp, _, _⟩ | ⟨hp, _, _⟩
  · rw [h] at he
    cases he
    exact hr
  all_goals rw [h] at hp; cases hp

/-- Witness for claim C3 at a concrete parse failure. -/
theorem testProxy_invalid_url_witness :
    testProxy ptW1 envBadW "http://%zz" =
      (⟨"http://%zz", false, "", "Invalid proxy URL: " ++ "bad", 9⟩, 0) :=
  testProxy_invalid_url ptW1 envBadW "http://%zz" "bad" rfl

/-- Claim C6: every return path of `testProxy` sets the `Duration` field to
the elapsed reading `time.Since(start)` taken at that return; no branch
leaves it unset. -/
theorem testProxy_duration_always_set (pt : ProxyTester) (env : ProbeEnv)
    (a : String) : (testProxy pt env a).1.Duration = env.elapsed := by
  rcases testProxy_branches pt env a with
    ⟨e, _, h⟩ | ⟨_, e, _, h⟩ | ⟨_, _, e, _, h⟩ | ⟨_, _, r, _, _, h⟩ |
    ⟨_, _, r, e, _, _, _, h⟩ | ⟨_, _, r, b, _, _, _, _, h⟩ |
    ⟨_, _, r, b, _, _, _, _, h⟩ <;> rw [h]

/-- Counterexample to claim C4 as stated: HTTP 204 is inside the 2xx range
and carries a syntactically valid IP body, yet `testProxy` rejects it on
status (`working=false`, error `"HTTP 204"`, empty IP) instead of proceeding
to body reading and payload validation. -/
theorem testProxy_status2xx_cex :
    ((200 : Int) ≤ 204 ∧ (204 : Int) < 300) ∧
    goParseIP (trimSpace "1.2.3.4") = true ∧
    (testProxy ptW1 env204W "http://p").1.IsWorking = false ∧
    (testProxy ptW1 env204W "http://p").1.Error = "HTTP 204" ∧
    (testProxy ptW1 env204W "http://p").1.IP = "" := by
  refine ⟨⟨by decide, by decide⟩, by decide, ?_, ?_, ?_⟩ <;> decide

/-- Claim C4 (amended): a received response is classified as a status
failure — `working=false` with the error naming the status code — exactly
when its status differs from 200; only a status-200 response proceeds to
body reading and payload validation. -/
theorem testProxy_status_check (pt : ProxyTester) (env : ProbeEnv) (a : String)
    (resp : HttpResponse) (hp : env.parseURL = none)
    (hn : env.newRequest = none) (hd : env.clientDo = Except.ok resp) :
    (((testProxy pt env a).1.Error = "HTTP " ++ toString resp.StatusCode ∧
      (testProxy pt env a).1.IsWorking = false) ↔ resp.StatusCode ≠ 200) ∧
    (resp.StatusCode = 200 →
      (testProxy pt env a).1 =
        match resp.BodyRead with
        | Except.error e =>
          ⟨a, false, "", "Failed to read response: " ++ e, env.elapsed⟩
        | Except.ok body =>
          if goParseIP (trimSpace body) = false then
            ⟨a, false, "", "Invalid IP response", env.elapsed⟩
          else ⟨a, true, trimSpace body, "", env.elapsed⟩) := by
  rcases testProxy_branches pt env a with
    ⟨e, he, _⟩ | ⟨_, e, he, _⟩ | ⟨_, _, e, he, _⟩ | ⟨_, _, r, hr, hs, h⟩ |
    ⟨_, _, r, e, hr, hs, hb, h⟩ | ⟨_, _, r, b, hr, hs, hb, hip, h⟩ |
    ⟨_, _, r, b, hr, hs, hb, hip, h⟩
  · rw [hp] at he; cases he
  · rw [hn] at he; cases he
  · rw [hd] at he; cases he
  · rw [hd] at hr
    cases hr
    constructor
    · rw [h]
      exact ⟨fun _ => hs, fun _ => ⟨rfl, rfl⟩⟩
    · intro hc
      exact absurd hc hs
  · rw [hd] at hr
    cases hr
    constructor
    · rw [h, hs]
      constructor
      · intro ⟨herr, _⟩
        exfalso
        have herr2 : "Failed to read response: " ++ e =
            "HTTP " ++ toString (200 : Int) := herr
        exact @String.append_ne_append_of_head "Failed to read response: "
          "HTTP " e (toString (200 : Int)) 'F' 'H' rfl rfl
          (by decide) herr2
      · intro hc
        exact absurd rfl hc
    · intro _
      rw [h, hb]
  · rw [hd] at hr
    cases hr
    constructor
    · rw [h, hs]
      constructor
      · intro ⟨herr, _⟩
        have herr2 : "Invalid IP response" = "HTTP " ++ toString (200 : Int) :=
          herr
        exact absurd herr2 (by decide)
      · intro hc
        exact absurd rfl hc
    · intro _
      rw [h, hb]
      simp [hip]
  · rw [hd] at hr
    cases hr
    constructor
    · rw [h, hs]
      constructor
      · intro ⟨herr, _⟩
        have herr2 : "" = "HTTP " ++ toString (200 : Int) := herr
        exact absurd herr2 (by decide)
      · intro hc
        exact absurd rfl hc
    · intro _
      rw [h, hb]
      simp [hip]

/-- Witness for amended claim C4 at the HTTP 204 fixture. -/
theorem testProxy_status_check_witness :
    (((testProxy ptW1 env204W "http://p").1.Error =
        "HTTP " ++ toString (204 : Int) ∧
      (testProxy ptW1 env204W "http://p").1.IsWorking = false) ↔
        (204 : Int) ≠ 200) ∧
    ((204 : Int) = 200 →
      (testProxy ptW1 env204W "http://p").1 =
        ⟨"http://p", true, trimSpace "1.2.3.4", "", 5⟩) := by
  have h := testProxy_status_check ptW1 env204W "http://p"
    ⟨204, Except.ok "1.2.3.4"⟩ rfl rfl rfl
  exact ⟨h.1, fun hc => by simpa [(by decide : goParseIP (trimSpace "1.2.3.4") = true)] using h.2 hc⟩

/-- Counterexample to claim C5 as stated: for a readable non-IP body the
error the code produces is `"Invalid IP response"`, which differs from the
claimed string `"invalid IP response"`. -/
theorem testProxy_invalid_ip_text_cex :
    (testProxy ptW1 envHelloW "http://p").1.Error = "Invalid IP response" ∧
    (testProxy ptW1 envHelloW "http://p").1.Error ≠ "invalid IP response" ∧
    (testProxy ptW1 envHelloW "http://p").1.IsWorking = false ∧
    goParseIP (trimSpace "hello") = false := by
  refine ⟨by decide, by decide, by decide, by decide⟩

/-- Claim C5 (amended): for a status-200 response with readable body, if the
whitespace-trimmed body is a valid IP literal the result is working=true
with IP equal to the trimmed literal, otherwise working=false with error
`"Invalid IP response"` (capitalised as in the code). -/
theorem testProxy_body_classification (pt : ProxyTester) (env : ProbeEnv)
    (a : String) (resp : HttpResponse) (body : String)
    (hp : env.parseURL = none) (hn : env.newRequest = none)
    (hd : env.clientDo = Except.ok resp) (hs : resp.StatusCode = 200)
    (hb : resp.BodyRead = Except.ok body) :
    (goParseIP (trimSpace body) = true →
      (testProxy pt env a).1 = ⟨a, true, trimSpace body, "", env.elapsed⟩) ∧
    (goParseIP (trimSpace body) = false →
      (testProxy pt env a).1 =
        ⟨a, false, "", "Invalid IP response", env.elapsed⟩) := by
  rcases testProxy_branches pt env a with
    ⟨e, he, _⟩ | ⟨_, e, he, _⟩ | ⟨_, _, e, he, _⟩ | ⟨_, _, r, hr, hs2, h⟩ |
    ⟨_, _, r, e, hr, _, hb2, h⟩ | ⟨_, _, r, b, hr, _, hb2, hip, h⟩ |
    ⟨_, _, r, b, hr, _, hb2, hip, h⟩
  · rw [hp] at he; cases he
  · rw [hn] at he; cases he
  · rw [hd] at he; cases he
  · rw [hd] at hr
    cases hr
    exact absurd hs hs2
  · rw [hd] at hr
    cases hr
    rw [hb] at hb2
    cases hb2
  · rw [hd] at hr
    cases hr
    rw [hb] at hb2
    cases hb2
    constructor
    · intro ht
      rw [ht] at hip
      cases hip
    · intro _
      rw [h]
  · rw [hd] at hr
    cases hr
    rw [hb] at hb2
    cases hb2
    constructor
    · intro _
      rw [h]
    · intro hf
      rw [hf] at hip
      cases hip

/-- Witness for amended claim C5 at a concrete valid-IP body. -/
theorem testProxy_body_classification_witness :
    (goParseIP (trimSpace "1.2.3.4") = true →
      (testProxy ptW1 envOKW "http://a").1 =
        ⟨"http://a", true, trimSpace "1.2.3.4", "", 7⟩) ∧
    (goParseIP (trimSpace "1.2.3.4") = false →
      (testProxy ptW1 envOKW "http://a").1 =
        ⟨"http://a", false, "", "Invalid IP response", 7⟩) :=
  testProxy_body_classification ptW1 envOKW "http://a"
    ⟨200, Except.ok "1.2.3.4"⟩ "1.2.3.4" rfl rfl rfl rfl rfl

/-- A character list is a `isPrefixOf` of itself followed by anything. -/
theorem isPrefixOf_self_append (l r : List Char) :
    l.isPrefixOf (l ++ r) = true := by
  induction l with
  | nil => simp [List.isPrefixOf]
  | cons c cs ih => simp [List.isPrefixOf, ih]

/-- Prepending a scheme makes the scheme a prefix of the result. -/
theorem goHasPref_append (pre t : String) : goHasPref (pre ++ t) pre = true := by
  unfold goHasPref
  rw [String.data_append]
  exact isPrefixOf_self_append pre.data t.data

/-- `processLine` written as the spec describes it: drop blank and comment
lines, keep lines that already carry a recognized scheme, default the rest
to `http://`. -/
theorem processLine_eq (line : String) :
    processLine line =
      if !(trimSpace line == "") && !(goHasPref (trimSpace line) "#") then
        some (if goHasPref (trimSpace line) "http://" ||
            goHasPref (trimSpace line) "https://" ||
            goHasPref (trimSpace line) "socks5://" then trimSpace line
          else "http://" ++ trimSpace line)
      else none := by
  unfold processLine
  by_cases hkeep : (!(trimSpace line == "") && !(goHasPref (trimSpace line) "#")) = true
  · rw [if_pos hkeep, if_pos hkeep]
    cases hsch : (goHasPref (trimSpace line) "http://" ||
        goHasPref (trimSpace line) "https://" ||
        goHasPref (trimSpace line) "socks5://") with
    | false =>
      simp only [Bool.or_eq_false_iff] at hsch
      simp [hsch.1, hsch.2]
    | true =>
      rcases Bool.or_eq_true_iff.mp hsch with h1 | h2
      · rcases Bool.or_eq_true_iff.mp h1 with ha | hb
        · simp [ha]
        · simp [hb]
      · simp [h2]
  · rw [if_neg hkeep, if_neg hkeep]

/-- Claim C7: the proxy loader drops lines that are blank or start with `#`
after trimming, prefixes `http://` to each remaining line that carries none
of the three recognized schemes, and consequently every returned address
starts with `http://`, `https://` or `socks5://`. -/
theorem loadProxiesFromReader_spec (lines : List String) :
    loadProxiesFromReader lines =
      ((lines.map trimSpace).filter
        (fun t => !(t == "") && !(goHasPref t "#"))).map
        (fun t => if goHasPref t "http://" || goHasPref t "https://" ||
            goHasPref t "socks5://" then t else "http://" ++ t) ∧
    ∀ p ∈ loadProxiesFromReader lines,
      goHasPref p "http://" = true ∨ goHasPref p "https://" = true ∨
        goHasPref p "socks5://" = true := by
  constructor
  · induction lines with
    | nil => rfl
    | cons l ls ih =>
      simp only [loadProxiesFromReader, List.filterMap_cons, List.map_cons,
        List.filter_cons] at ih ⊢
      rw [processLine_eq l]
      by_cases hkeep : (!(trimSpace l == "") && !(goHasPref (trimSpace l) "#")) = true
      · rw [if_pos hkeep, if_pos hkeep]
        simp only [List.map_cons]
        rw [ih]
      · rw [if_neg hkeep, if_neg hkeep]
        exact ih
  · intro p hp
    unfold loadProxiesFromReader at hp
    rw [List.mem_filterMap] at hp
    obtain ⟨l, _, hl⟩ := hp
    rw [processLine_eq l] at hl
    by_cases hkeep : (!(trimSpace l == "") && !(goHasPref (trimSpace l) "#")) = true
    · rw [if_pos hkeep] at hl
      have hl2 := Option.some.inj hl
      cases hsch : (goHasPref (trimSpace l) "http://" ||
          goHasPref (trimSpace l) "https://" ||
          goHasPref (trimSpace l) "socks5://") with
      | true =>
        rw [hsch, if_pos rfl] at hl2
        subst hl2
        rcases Bool.or_eq_true_iff.mp hsch with h1 | h2
        · rcases Bool.or_eq_true_iff.mp h1 with ha | hb
          · exact Or.inl ha
          · exact Or.inr (Or.inl hb)
        · exact Or.inr (Or.inr h2)
      | false =>
        rw [hsch] at hl2
        simp only [Bool.false_eq_true, if_false] at hl2
        subst hl2
        exact Or.inl (goHasPref_append "http://" (trimSpace l))
    · rw [if_neg hkeep] at hl
      cases hl

/-- Witness for claim C7 at a concrete mixed line list. -/
theorem loadProxiesFromReader_spec_witness :
    loadProxiesFromReader [" 1.2.3.4:80 ", "# c", "", "https://a"] =
      (((([" 1.2.3.4:80 ", "# c", "", "https://a"]).map trimSpace).filter
        (fun t => !(t == "") && !(goHasPref t "#"))).map
        (fun t => if goHasPref t "http://" || goHasPref t "https://" ||
            goHasPref t "socks5://" then t else "http://" ++ t)) ∧
    ∀ p ∈ loadProxiesFromReader [" 1.2.3.4:80 ", "# c", "", "https://a"],
      goHasPref p "http://" = true ∨ goHasPref p "https://" = true ∨
        goHasPref p "socks5://" = true :=
  loadProxiesFromReader_spec [" 1.2.3.4:80 ", "# c", "", "https://a"]

/-- Claim C10: with `maxLen ≥ 3`, `truncateString` returns the input
unchanged when it fits, and otherwise a string of length exactly `maxLen`
ending in `"..."`; the internal slice stays in bounds, so no panic occurs. -/
theorem truncateString_spec (s : List UInt8) (maxLen : Int) (h : 3 ≤ maxLen) :
    (truncateString s maxLen).isSome = true ∧
    ((s.length : Int) ≤ maxLen → truncateString s maxLen = some s) ∧
    (maxLen < (s.length : Int) →
      ∃ t, truncateString s maxLen = some t ∧ (t.length : Int) = maxLen ∧
        t.drop (t.length - 3) = [46, 46, 46]) := by
  by_cases hle : (s.length : Int) ≤ maxLen
  · refine ⟨?_, fun _ => ?_, fun hlt => absurd hle (by omega)⟩
    · rw [truncateString, if_pos hle]
      rfl
    · rw [truncateString, if_pos hle]
  · have hlt : maxLen < (s.length : Int) := by omega
    have hg : 0 ≤ maxLen - 3 ∧ maxLen - 3 ≤ (s.length : Int) := by omega
    have heq : truncateString s maxLen =
        some (s.take (maxLen - 3).toNat ++ [46, 46, 46]) := by
      rw [truncateString, if_neg hle, if_pos hg]
    have hkn : ((maxLen - 3).toNat : Int) = maxLen - 3 :=
      Int.toNat_of_nonneg hg.1
    have hkle : (maxLen - 3).toNat ≤ s.length := by omega
    have htake : (s.take (maxLen - 3).toNat).length = (maxLen - 3).toNat := by
      rw [List.length_take]
      omega
    refine ⟨by rw [heq]; rfl, fun hc => absurd hc (by omega), fun _ =>
      ⟨s.take (maxLen - 3).toNat ++ [46, 46, 46], heq, ?_, ?_⟩⟩
    · rw [List.length_append, htake]
      have h46 : ([46, 46, 46] : List UInt8).length = 3 := rfl
      rw [h46]
      omega
    · rw [List.length_append, htake]
      have h3 : (maxLen - 3).toNat + ([46, 46, 46] : List UInt8).length - 3 =
          (s.take (maxLen - 3).toNat).length := by
        rw [htake]
        rfl
      rw [h3, List.drop_left]

/-- Witness for claim C10 at a four-byte input and limit 3. -/
theorem truncateString_spec_witness :
    (truncateString [104, 105, 106, 107] 3).isSome = true ∧
    ((([104, 105, 106, 107] : List UInt8).length : Int) ≤ 3 →
      truncateString [104, 105, 106, 107] 3 = some [104, 105, 106, 107]) ∧
    (3 < (([104, 105, 106, 107] : List UInt8).length : Int) →
      ∃ t, truncateString [104, 105, 106, 107] 3 = some t ∧
        (t.length : Int) = 3 ∧ t.drop (t.length - 3) = [46, 46, 46]) :=
  truncateString_spec [104, 105, 106, 107] 3 (by decide)

/-- Claim C1: for any worker count at least 1, `TestProxies` terminates, and
every finished run collects exactly one `ProxyResult` per input address — the
output length equals the input length, the multiset of `Proxy` fields equals
the multiset of input addresses, and an empty input yields an empty
output. -/
theorem TestProxies_exactly_once (pt : ProxyTester) (envF : String → ProbeEnv)
    (proxies : List String) (h : 1 ≤ pt.maxWorkers) :
    (∃ t, TestProxiesReach (probeOf pt envF) (TestProxiesInit pt proxies) t ∧
      TestProxiesDone t) ∧
    (∀ t, TestProxiesReach (probeOf pt envF) (TestProxiesInit pt proxies) t →
      TestProxiesDone t →
      t.results.length = proxies.length ∧
      (↑(t.results.map ProxyResult.Proxy) : Multiset String) =
        (↑proxies : Multiset String) ∧
      (proxies = [] → t.results = [])) := by
  constructor
  · obtain ⟨hr, hd⟩ := TestProxies_total (probeOf pt envF) pt proxies h
    exact ⟨_, hr, hd⟩
  · intro t hr hd
    have hperm := TestProxiesDone.results_perm hr hd h
    refine ⟨?_, ?_, ?_⟩
    · rw [hperm.length_eq, List.length_map]
    · rw [Multiset.coe_eq_coe]
      have h2 : (t.results.map ProxyResult.Proxy).Perm
          ((proxies.map (probeOf pt envF)).map ProxyResult.Proxy) :=
        hperm.map _
      have h3 : (proxies.map (probeOf pt envF)).map ProxyResult.Proxy =
          proxies := by
        rw [List.map_map]
        have hcomp : (ProxyResult.Proxy ∘ probeOf pt envF) = id :=
          funext fun x => testProxy_Proxy pt (envF x) x
        rw [hcomp, List.map_id]
      rwa [h3] at h2
    · intro hnil
      subst hnil
      exact hperm.eq_nil

/-- Witness for claim C1 with one worker and one address. -/
theorem TestProxies_exactly_once_witness :
    (∃ t, TestProxiesReach (probeOf ptW1 (fun _ => envOKW))
        (TestProxiesInit ptW1 ["http://a"]) t ∧ TestProxiesDone t) ∧
    (∀ t, TestProxiesReach (probeOf ptW1 (fun _ => envOKW))
        (TestProxiesInit ptW1 ["http://a"]) t →
      TestProxiesDone t →
      t.results.length = ["http://a"].length ∧
      (↑(t.results.map ProxyResult.Proxy) : Multiset String) =
        (↑(["http://a"] : List String) : Multiset String) ∧
      (["http://a"] = ([] : List String) → t.results = [])) :=
  TestProxies_exactly_once ptW1 (fun _ => envOKW) ["http://a"] (by decide)

/-- Claim C8: with a zero or negative worker count, `TestProxies` still
terminates (the initial state is already final) and every reachable state —
in particular every finished one — carries an empty result collection: no
address is ever probed. -/
theorem TestProxies_nonpositive_workers (pt : ProxyTester)
    (envF : String → ProbeEnv) (proxies : List String)
    (h : pt.maxWorkers ≤ 0) :
    TestProxiesDone (TestProxiesInit pt proxies) ∧
    (∀ t, TestProxiesReach (probeOf pt envF) (TestProxiesInit pt proxies) t →
      t.results = [] ∧ TestProxiesDone t) := by
  have hw : (TestProxiesInit pt proxies).workers = [] := by
    rw [TestProxiesInit]
    dsimp only
    rw [Int.toNat_of_nonpos h]
    rfl
  have hdone : TestProxiesDone (TestProxiesInit pt proxies) := by
    constructor
    · intro o ho
      rw [hw] at ho
      cases ho
    · exact Or.inl hw
  refine ⟨hdone, fun t hr => ?_⟩
  have ht := TestProxiesReach.eq_of_no_workers hr hw
  rw [ht]
  exact ⟨rfl, hdone⟩

/-- Witness for claim C8 with zero workers and a non-empty input. -/
theorem TestProxies_nonpositive_workers_witness :
    TestProxiesDone (TestProxiesInit ptW0 ["http://a"]) ∧
    (∀ t, TestProxiesReach (probeOf ptW0 (fun _ => envOKW))
        (TestProxiesInit ptW0 ["http://a"]) t →
      t.results = [] ∧ TestProxiesDone t) :=
  TestProxies_nonpositive_workers ptW0 (fun _ => envOKW) ["http://a"]
    (by decide)

/-- Claim C9: for one deterministic probe function and one input list, a
finished one-worker run and a finished run with any worker count at least 1
collect the same multiset of results, and both equal the sequential
reference run — worker count 1 is an exact sequential refinement of the
pool. -/
theorem TestProxies_worker_count_irrelevant (probe : String → ProxyResult)
    (proxies : List String) (pt1 ptN : ProxyTester)
    (h1 : pt1.maxWorkers = 1) (hN : 1 ≤ ptN.maxWorkers)
    (t1 tN : PoolState)
    (r1 : TestProxiesReach probe (TestProxiesInit pt1 proxies) t1)
    (d1 : TestProxiesDone t1)
    (rN : TestProxiesReach probe (TestProxiesInit ptN proxies) tN)
    (dN : TestProxiesDone tN) :
    (↑t1.results : Multiset ProxyResult) = (↑tN.results : Multiset ProxyResult) ∧
    (↑t1.results : Multiset ProxyResult) =
      ↑(testProxiesSeq probe proxies) := by
  have hp1 := TestProxiesDone.results_perm r1 d1 (by rw [h1])
  have hpN := TestProxiesDone.results_perm rN dN hN
  constructor
  · rw [Multiset.coe_eq_coe]
    exact hp1.trans hpN.symm
  · rw [Multiset.coe_eq_coe]
    exact hp1

/-- Witness for claim C9 comparing one and two workers on two addresses. -/
theorem TestProxies_worker_count_irrelevant_witness :
    (↑t1W.results : Multiset ProxyResult) = (↑tNW.results : Multiset ProxyResult) ∧
    (↑t1W.results : Multiset ProxyResult) =
      ↑(testProxiesSeq probeW ["http://a", "http://b"]) := by
  obtain ⟨r1, d1⟩ := TestProxies_total probeW ptW1 ["http://a", "http://b"]
    (by decide)
  obtain ⟨rN, dN⟩ := TestProxies_total probeW ptW2 ["http://a", "http://b"]
    (by decide)
  exact TestProxies_worker_count_irrelevant probeW ["http://a", "http://b"]
    ptW1 ptW2 rfl (by decide) t1W tNW r1 d1 rN dN
